import Mathlib

/-!
Verification of the quote extraction-and-analysis pipeline.

This file gives a shallow embedding, in Lean, of the core functions of the
repository (the GPT structured extractor, the prompt-configuration resolver,
the price analyzer, and the FRED index model), and proves the stated
properties of the specification against that embedding.

Conventions of the embedding:
- Python strings are Lean `String`s; character-level operations work on
  `String.data : List Char`.
- Python floats are modelled as rationals (`ℚ`); dates and datetimes used
  only for comparisons are modelled as integer day counts (`ℤ`), while
  calendar dates with year/month/day structure are a `PyDate` record.
- Fallible steps return `Except PyErr`; a Python try/except is a `match` on
  the `Except` value.
- External collaborators (the Azure LLM call, the langchain pydantic output
  parser, the per-business-unit databases, the Django ORM row stores) are
  parameters: oracles passed to the embedded functions, or explicit lists of
  rows standing for the table contents.
-/

/-- Python `str.isspace` / `str.split()` whitespace classification, by code
point (ASCII whitespace, the C1 separators, NEL, NBSP, and the Unicode
space/line/paragraph separators). -/
def isPySpace (c : Char) : Bool :=
  decide (c.toNat = 32 ∨ c.toNat = 9 ∨ c.toNat = 10 ∨ c.toNat = 13 ∨ c.toNat = 11 ∨
    c.toNat = 12 ∨ (28 ≤ c.toNat ∧ c.toNat ≤ 31) ∨ c.toNat = 133 ∨ c.toNat = 160 ∨
    c.toNat = 5760 ∨ (8192 ≤ c.toNat ∧ c.toNat ≤ 8202) ∨ c.toNat = 8232 ∨
    c.toNat = 8233 ∨ c.toNat = 8239 ∨ c.toNat = 8287 ∨ c.toNat = 12288)

/-- Worker of `pySplit`: `acc` holds the characters of the token currently
being read, in reverse order. -/
def pySplitAux : List Char → List Char → List (List Char)
  | [], acc => if acc.isEmpty then [] else [acc.reverse]
  | c :: cs, acc =>
    if isPySpace c then
      (if acc.isEmpty then pySplitAux cs [] else acc.reverse :: pySplitAux cs [])
    else pySplitAux cs (c :: acc)

/-- Python `text.split()` (no separator argument): the maximal runs of
non-whitespace characters, with leading/trailing/repeated whitespace
discarded. -/
def pySplit (l : List Char) : List (List Char) :=
  pySplitAux l []

/-- Python `' '.join(tokens)` specialised to a single-space separator. -/
def joinSp : List (List Char) → List Char
  | [] => []
  | [t] => t
  | t :: ts => t ++ ' ' :: joinSp ts

/-- Observer used to state the no-double-space property: `true` when two
consecutive spaces occur somewhere in the character list. -/
def hasDD : List Char → Bool
  | a :: b :: l => (decide (a = ' ') && decide (b = ' ')) || hasDD (b :: l)
  | _ => false

/-- `GPTExtractor._preprocess_text`: `' '.join(text.split())`, then keep only
characters with code point `< 128`. -/
def _preprocess_text (text : String) : String :=
  ⟨(joinSp (pySplit text.data)).filter (fun c => c.toNat < 128)⟩

/-- Python `str.upper()` restricted to ASCII letters (the only case the
specification exercises); character-wise `Char.toUpper`. -/
def pyUpper (s : String) : String :=
  ⟨s.data.map Char.toUpper⟩

/-- List-level Python `str.strip()`: drop leading and trailing whitespace. -/
def pyStripAux (l : List Char) : List Char :=
  ((l.dropWhile isPySpace).reverse.dropWhile isPySpace).reverse

/-- Python `str.strip()` with no argument. -/
def pyStrip (s : String) : String :=
  ⟨pyStripAux s.data⟩

/-- Calendar date (`datetime.date` / the date part of `datetime`). -/
structure PyDate where
  year : ℕ
  month : ℕ
  day : ℕ
deriving DecidableEq

/-- Lexicographic order on calendar dates, as Python compares `date`s. -/
def PyDate.le (a b : PyDate) : Prop :=
  a.year < b.year ∨ (a.year = b.year ∧
    (a.month < b.month ∨ (a.month = b.month ∧ a.day ≤ b.day)))

instance (a b : PyDate) : Decidable (PyDate.le a b) := by
  unfold PyDate.le; infer_instance

/-- Strict lexicographic order on calendar dates. -/
def PyDate.lt (a b : PyDate) : Prop :=
  a.year < b.year ∨ (a.year = b.year ∧
    (a.month < b.month ∨ (a.month = b.month ∧ a.day < b.day)))

instance (a b : PyDate) : Decidable (PyDate.lt a b) := by
  unfold PyDate.lt; infer_instance

/-- Gregorian leap-year rule (as `datetime` validates day-of-month). -/
def isLeapYear (y : ℕ) : Bool :=
  y % 4 = 0 && (y % 100 ≠ 0 || y % 400 = 0)

/-- Number of days in a month, as `datetime` validates. -/
def daysInMonth (y m : ℕ) : ℕ :=
  if m = 2 then (if isLeapYear y then 29 else 28)
  else if m = 4 ∨ m = 6 ∨ m = 9 ∨ m = 11 then 30 else 31

/-- Decimal digit run to a number (`int(...)` on an all-digit string). -/
def parseNatDigits (cs : List Char) : Option ℕ :=
  if cs ≠ [] ∧ cs.all (fun c => c.isDigit) then
    some (cs.foldl (fun n c => n * 10 + (c.toNat - 48)) 0)
  else none

/-- Python `datetime.strptime(s, "%Y-%m-%d")`: a four-digit year (at least
0001), a one-or-two-digit month in 1..12, and a one-or-two-digit day valid
for that month; anything else raises `ValueError`, modelled as `none`. -/
def strptime_Ymd (s : String) : Option PyDate :=
  match s.splitOn "-" with
  | [ys, ms, ds] =>
    match parseNatDigits ys.data, parseNatDigits ms.data, parseNatDigits ds.data with
    | some y, some m, some d =>
      if ys.length = 4 ∧ 1 ≤ y ∧ (ms.length = 1 ∨ ms.length = 2) ∧ 1 ≤ m ∧ m ≤ 12 ∧
         (ds.length = 1 ∨ ds.length = 2) ∧ 1 ≤ d ∧ d ≤ daysInMonth y m
      then some ⟨y, m, d⟩ else none
    | _, _, _ => none
  | _ => none

/-- Zero-padded two-digit field of `strftime`. -/
def pad2 (n : ℕ) : String :=
  if n < 10 then "0" ++ toString n else toString n

/-- Zero-padded four-digit field of `strftime`. -/
def pad4 (n : ℕ) : String :=
  if n < 10 then "000" ++ toString n
  else if n < 100 then "00" ++ toString n
  else if n < 1000 then "0" ++ toString n
  else toString n

/-- Python `d.strftime("%Y-%m-%d")`: the ISO rendering of a date. -/
def strftime_Ymd (d : PyDate) : String :=
  pad4 d.year ++ "-" ++ pad2 d.month ++ "-" ++ pad2 d.day

/-- Exceptions of the embedded pipeline: the Django ORM errors, the external
LLM/parse failures, and database errors, all subclasses of Python
`Exception` and hence caught by a bare `except Exception`. -/
inductive PyErr where
  | doesNotExist
  | multipleObjectsReturned
  | llmFailure
  | outputParseFailure
  | dbFailure
deriving DecidableEq

/-- Pydantic `QuoteItem`: one line item of a quote. -/
structure QuoteItem where
  item_number : Option String
  description : Option String
  quantity : Option ℚ
  unit_price : Option ℚ
  unit_of_measure : Option String
deriving DecidableEq

/-- Pydantic `QuoteData`: the complete extracted quote. -/
structure QuoteData where
  supplier_name : Option String
  quote_number : Option String
  quote_date : Option String
  items : List QuoteItem
deriving DecidableEq

/-- Django model `GPTPromptConfig` (the fields the core reads/writes). -/
structure GPTPromptConfig where
  pk : ℕ
  name : String
  system_prompt : String
  user_prompt : String
  is_active : Bool
deriving DecidableEq

/-- The hardcoded default system prompt of
`GPTExtractor._get_active_prompt_config`. -/
def default_system_prompt : String :=
  "You are a precise quote data extractor. Your task is to extract structured data from supplier quotes.\n                Important guidelines:\n                1. Extract ONLY factual information present in the text\n                2. For dates, ensure they are in YYYY-MM-DD format\n                3. For numbers, ensure they are converted to proper numerical values\n                4. For item numbers, preserve exact formatting\n                5. If a value is clearly missing, use null\n                6. For unit prices, extract the individual unit price, not total price\n                7. If unit of measure is not specified, use EA for each\n\n                The output should match this format exactly:\n                {format_instructions}\n                "

/-- The hardcoded default user prompt of
`GPTExtractor._get_active_prompt_config`. -/
def default_user_prompt : String :=
  "Please extract the quote information from the following text:\n\n{text_content}"

/-- Django `GPTPromptConfig.objects.get(is_active=True)`: zero matching rows
raise `DoesNotExist`, more than one raise `MultipleObjectsReturned`. -/
def objects_get_active (store : List GPTPromptConfig) : Except PyErr GPTPromptConfig :=
  match store.filter (fun c => c.is_active) with
  | [] => .error .doesNotExist
  | [c] => .ok c
  | _ => .error .multipleObjectsReturned

/-- `GPTExtractor._get_active_prompt_config`: the active config (system,
user) pair; on `DoesNotExist` the hardcoded defaults; any other error (in
particular `MultipleObjectsReturned`) propagates. -/
def _get_active_prompt_config (store : List GPTPromptConfig) : Except PyErr (String × String) :=
  match objects_get_active store with
  | .ok c => .ok (c.system_prompt, c.user_prompt)
  | .error .doesNotExist => .ok (default_system_prompt, default_user_prompt)
  | .error e => .error e

/-- `GPTExtractor._validate_date`: `None`/empty stays `None`; a string that
parses as `%Y-%m-%d` is re-rendered by `strftime`; a string that does not
parse is replaced by the current date. -/
def _validate_date (today : PyDate) (date_str : Option String) : Option String :=
  match date_str with
  | none => none
  | some s =>
    if s = "" then none
    else
      match strptime_Ymd s with
      | some d => some (strftime_Ymd d)
      | none => some (strftime_Ymd today)

/-- The loop body of `GPTExtractor._validate_quote_data` acting on one item:
absolute values for quantity/unit price when present; unit of measure
upper-cased and stripped when truthy, defaulted to "EA" when `None` or
empty. -/
def _validate_item (it : QuoteItem) : QuoteItem :=
  { it with
    quantity := it.quantity.map (fun q => |q|)
    unit_price := it.unit_price.map (fun q => |q|)
    unit_of_measure :=
      match it.unit_of_measure with
      | some s => if s = "" then some "EA" else some (pyStrip (pyUpper s))
      | none => some "EA" }

/-- `GPTExtractor._validate_quote_data`: re-validate the quote date when it
is truthy (non-`None`, non-empty), and clean every item. -/
def _validate_quote_data (today : PyDate) (qd : QuoteData) : QuoteData :=
  { qd with
    quote_date :=
      match qd.quote_date with
      | none => none
      | some s => if s = "" then some s else _validate_date today (some s)
    items := qd.items.map _validate_item }

/-- The body of the `try` block of `GPTExtractor.extract_quote_data`:
preprocess, resolve the prompt pair, invoke the model (an oracle taking the
system prompt, the user prompt, and the cleaned text), parse the response
(an oracle standing for the langchain pydantic parser), validate. -/
def extract_core (store : List GPTPromptConfig)
    (invoke : String → String → String → Except PyErr String)
    (parse : String → Except PyErr QuoteData)
    (today : PyDate) (text_content : String) : Except PyErr QuoteData := do
  let cleaned := _preprocess_text text_content
  let pair ← _get_active_prompt_config store
  let response ← invoke pair.1 pair.2 cleaned
  let qd ← parse response
  pure (_validate_quote_data today qd)

/-- The fallback object built in the `except` branch of
`extract_quote_data`. -/
def fallback_quote_data (today : PyDate) : QuoteData :=
  { supplier_name := none
    quote_number := none
    quote_date := some (strftime_Ymd today)
    items := [] }

/-- `GPTExtractor.extract_quote_data`: the `try` body, with every raised
`Exception` converted into the minimal valid fallback object. -/
def extract_quote_data (store : List GPTPromptConfig)
    (invoke : String → String → String → Except PyErr String)
    (parse : String → Except PyErr QuoteData)
    (today : PyDate) (text_content : String) : QuoteData :=
  match extract_core store invoke parse today text_content with
  | .ok qd => qd
  | .error _ => fallback_quote_data today

/-- `GPTPromptConfig.save`: when the saved config is active, first set
`is_active = False` on every row with a different primary key
(`objects.exclude(pk=self.pk).update(is_active=False)`), then write the row
itself (update in place when the pk exists, else insert at the end). -/
def GPTPromptConfig.save (store : List GPTPromptConfig) (c : GPTPromptConfig) :
    List GPTPromptConfig :=
  let store2 :=
    if c.is_active then
      store.map (fun r => if r.pk = c.pk then r else { r with is_active := false })
    else store
  if store2.any (fun r => decide (r.pk = c.pk)) then
    store2.map (fun r => if r.pk = c.pk then c else r)
  else store2 ++ [c]

/-- One row of the `FRED_AERO` table (`FredAero` model): a first-of-month
observation date and a decimal index value. -/
structure FredAeroRow where
  observation_date : PyDate
  index_value : ℚ
deriving DecidableEq

/-- `FredAero._get_first_of_month`: `date(target_date.year, target_date.month, 1)`. -/
def _get_first_of_month (target_date : PyDate) : PyDate :=
  ⟨target_date.year, target_date.month, 1⟩

/-- The row with the greatest observation date in a list: the embedding of
`queryset.order_by('-observation_date').first()` (among rows with equal
dates, which row the database returns first is unspecified; this embedding
keeps the last-listed one). -/
def mostRecentRow : List FredAeroRow → Option FredAeroRow
  | [] => none
  | o :: os =>
    match mostRecentRow os with
    | none => some o
    | some b => if PyDate.lt b.observation_date o.observation_date then some o else some b

/-- `FredAero.get_index_for_date`: align the target to the first of its
month, then take the most recent row whose observation date is on or before
that first-of-month date; `None` when no such row exists. The table
contents are the explicit `store` list. -/
def get_index_for_date (store : List FredAeroRow) (target_date : PyDate) :
    Option FredAeroRow :=
  let first_of_month := _get_first_of_month target_date
  mostRecentRow (store.filter (fun o => decide (PyDate.le o.observation_date first_of_month)))

/-- One fetched historical-purchase row: a price and a purchase date
(modelled as an integer day count, as only date comparisons matter). -/
structure PriceRow where
  price : ℚ
  purchase_date : ℤ
deriving DecidableEq

/-- The fixed business-unit source list of `PriceAnalyzer.__init__`. -/
def business_units : List String :=
  ["business_unit_a", "business_unit_b", "business_unit_c"]

/-- Tag every row of one source with its business unit
(`unit_data['business_unit'] = unit`). -/
def tagRows (unit : String) (rows : List PriceRow) : List (String × PriceRow) :=
  rows.map (fun r => (unit, r))

/-- The source loop of `PriceAnalyzer.fetch_historical_prices`: query each
unit in order (the oracle `db` stands for the per-unit cursor running the
SQL query for an item number and a cutoff date), tag and concatenate; a
raised database error stops the loop and propagates. -/
def fetch_loop (db : String → String → ℤ → Except PyErr (List PriceRow))
    (item_number : String) (cutoff_date : ℤ) :
    List String → Except PyErr (List (String × PriceRow))
  | [] => .ok []
  | u :: us => do
    let rows ← db u item_number cutoff_date
    let rest ← fetch_loop db item_number cutoff_date us
    pure (tagRows u rows ++ rest)

/-- `PriceAnalyzer.fetch_historical_prices`: cutoff at `now − lookback_days`,
then the concatenation of all unit results in source order. -/
def fetch_historical_prices (db : String → String → ℤ → Except PyErr (List PriceRow))
    (now : ℤ) (item_number : String) (lookback_days : ℤ := 365) :
    Except PyErr (List (String × PriceRow)) :=
  fetch_loop db item_number (now - lookback_days) business_units

/-- `PriceAnalyzer._normalize_series`: empty in, empty out; a zero first
value yields a zero series of the same length; otherwise percentage change
from the first value. -/
def _normalize_series (data : List ℚ) : List ℚ :=
  match data with
  | [] => []
  | first_value :: _ =>
    if first_value = 0 then List.replicate data.length 0
    else data.map (fun v => (v - first_value) / first_value * 100)

/-- The record returned by `calculate_price_statistics`. -/
structure PriceStatistics where
  min_price : Option ℚ
  max_price : Option ℚ
  avg_price : Option ℚ
  price_volatility : Option ℚ
  recent_trend : Option ℚ
deriving DecidableEq

/-- Minimum of a price list (`data['price'].min()`), `none` on empty. -/
def listMin : List ℚ → Option ℚ
  | [] => none
  | x :: xs => some (xs.foldl min x)

/-- Maximum of a price list (`data['price'].max()`), `none` on empty. -/
def listMax : List ℚ → Option ℚ
  | [] => none
  | x :: xs => some (xs.foldl max x)

/-- Mean of a list (`Series.mean()`; callers only use it on non-empty data). -/
def listMean (l : List ℚ) : ℚ :=
  l.sum / l.length

/-- Sample variance of a list (divisor `n - 1`). The source stores the
sample standard deviation (`Series.std()`), the square root of this value;
the radicand is kept because a square root has no rational representative,
and no specified property depends on the numeric value of the volatility,
only on whether it is present. -/
def sampleVariance (l : List ℚ) : ℚ :=
  (l.map (fun x => (x - listMean l) ^ 2)).sum / (l.length - 1)

/-- `PriceAnalyzer.calculate_price_statistics` on rows tagged with their
business unit: `None` everywhere on an empty frame; otherwise min, max,
mean and dispersion of the prices, and the recent trend computed from the
last-90-days and prior-90-to-180-days partitions relative to `now`, `None`
unless both partitions are non-empty. -/
def calculate_price_statistics (now : ℤ) (data : List (String × PriceRow)) :
    PriceStatistics :=
  if data.isEmpty then
    { min_price := none, max_price := none, avg_price := none
      price_volatility := none, recent_trend := none }
  else
    let prices := data.map (fun r => r.2.price)
    let recent_data := data.filter (fun r => decide (now - 90 ≤ r.2.purchase_date))
    let previous_data := data.filter (fun r =>
      decide (r.2.purchase_date < now - 90) && decide (now - 180 ≤ r.2.purchase_date))
    { min_price := listMin prices
      max_price := listMax prices
      avg_price := some (listMean prices)
      price_volatility := some (sampleVariance prices)
      recent_trend :=
        if ¬recent_data.isEmpty ∧ ¬previous_data.isEmpty then
          some ((listMean (recent_data.map (fun r => r.2.price))
                - listMean (previous_data.map (fun r => r.2.price)))
               / listMean (previous_data.map (fun r => r.2.price)) * 100)
        else none }

/-- Counterexample database for the fetch claims: the query of
`business_unit_b` raises while the other units return one row each. -/
def db_unit_b_down : String → String → ℤ → Except PyErr (List PriceRow) :=
  fun u _ _ => if u = "business_unit_b" then .error .dbFailure else .ok [⟨50, 700⟩]

/-! ## Theorems -/

theorem resolver_default_of_no_active (store : List GPTPromptConfig)
    (h : store.filter (fun c => c.is_active) = []) :
    _get_active_prompt_config store = .ok (default_system_prompt, default_user_prompt) := by
  simp [_get_active_prompt_config, objects_get_active, h]

theorem resolver_error_of_two_active (store : List GPTPromptConfig)
    (h : 1 < (store.filter (fun c => c.is_active)).length) :
    _get_active_prompt_config store = .error .multipleObjectsReturned := by
  rcases hf : store.filter (fun c => c.is_active) with _ | ⟨a, _ | ⟨b, rest⟩⟩
  · rw [hf] at h; simp at h
  · rw [hf] at h; simp at h
  · simp [_get_active_prompt_config, objects_get_active, hf]

theorem extract_eq_fallback_of_core_error (store : List GPTPromptConfig)
    (invoke : String → String → String → Except PyErr String)
    (parse : String → Except PyErr QuoteData)
    (today : PyDate) (text_content : String) (e : PyErr)
    (h : extract_core store invoke parse today text_content = .error e) :
    extract_quote_data store invoke parse today text_content =
      fallback_quote_data today := by
  simp [extract_quote_data, h]

/-- C1: for every input string (and every behaviour of the external prompt
store, model call and parser), `extract_quote_data` is a total function that
never propagates an error: whenever any internal step of the `try` body
fails, it returns the `QuoteData` with `supplier_name = none`,
`quote_number = none`, `quote_date = strftime("%Y-%m-%d")` of the current
date, and an empty item list; when the body succeeds its value is returned
unchanged. -/
theorem c1_extract_quote_data_total_with_fallback
    (store : List GPTPromptConfig)
    (invoke : String → String → String → Except PyErr String)
    (parse : String → Except PyErr QuoteData)
    (today : PyDate) (text_content : String) :
    (∀ e : PyErr, extract_core store invoke parse today text_content = .error e →
      extract_quote_data store invoke parse today text_content =
        { supplier_name := none
          quote_number := none
          quote_date := some (strftime_Ymd today)
          items := [] }) ∧
    (∀ qd : QuoteData, extract_core store invoke parse today text_content = .ok qd →
      extract_quote_data store invoke parse today text_content = qd) := by
  constructor
  · intro e h
    exact extract_eq_fallback_of_core_error store invoke parse today text_content e h
  · intro qd h
    simp [extract_quote_data, h]

theorem c1_extract_quote_data_total_with_fallback_witness :
    extract_quote_data [] (fun _ _ _ => .ok "no structure here")
      (fun _ => .error .outputParseFailure) ⟨2024, 5, 7⟩ "Quote from ACME Corp" =
      { supplier_name := none
        quote_number := none
        quote_date := some "2024-05-07"
        items := [] } := by
  have h := (c1_extract_quote_data_total_with_fallback []
      (fun _ _ _ => .ok "no structure here") (fun _ => .error .outputParseFailure)
      ⟨2024, 5, 7⟩ "Quote from ACME Corp").1 .outputParseFailure rfl
  exact h.trans (by decide)

/-- C2: `_normalize_series` sends the empty series to the empty series; a
series with a non-zero first value to the pointwise
`(v - first) / first * 100` series; a series with first value exactly zero
to the all-zero series of the same length; and in particular
`[100, 110, 90]` to `[0, 10, -10]` and `[0, 5, 10]` to `[0, 0, 0]`. -/
theorem c2_normalize_series_spec (first_value : ℚ) (rest : List ℚ) :
    _normalize_series [] = [] ∧
    (first_value ≠ 0 → _normalize_series (first_value :: rest) =
      (first_value :: rest).map (fun v => (v - first_value) / first_value * 100)) ∧
    (first_value = 0 → _normalize_series (first_value :: rest) =
      List.replicate (first_value :: rest).length 0) ∧
    _normalize_series [100, 110, 90] = [0, 10, -10] ∧
    _normalize_series [0, 5, 10] = [0, 0, 0] := by
  refine ⟨rfl, ?_, ?_, by norm_num [_normalize_series], by decide⟩
  · intro h; simp [_normalize_series, h]
  · intro h; simp [_normalize_series, h]

theorem c2_normalize_series_spec_witness :
    _normalize_series [100, 110, 90] = [0, 10, -10] ∧
    _normalize_series [0, 5, 10] = [0, 0, 0] := by
  constructor
  · have h := (c2_normalize_series_spec 100 [110, 90]).2.1 (by norm_num)
    exact h.trans (by norm_num)
  · have h := (c2_normalize_series_spec 0 [5, 10]).2.2.1 rfl
    exact h.trans (by decide)

/-- C3: `calculate_price_statistics` partitions the observations by purchase
date into a recent partition (`now - 90 ≤ date`) and a prior partition
(`now - 180 ≤ date < now - 90`); exactly when both partitions are non-empty,
`recent_trend` is `(mean recent − mean prior) / mean prior * 100`, otherwise
it is `none`; and on empty input every statistics field is `none`. -/
theorem c3_price_statistics_spec (now : ℤ) (data : List (String × PriceRow)) :
    (data = [] → calculate_price_statistics now data =
      { min_price := none, max_price := none, avg_price := none
        price_volatility := none, recent_trend := none }) ∧
    (data.filter (fun r => decide (now - 90 ≤ r.2.purchase_date)) ≠ [] →
      data.filter (fun r => decide (r.2.purchase_date < now - 90) &&
        decide (now - 180 ≤ r.2.purchase_date)) ≠ [] →
      (calculate_price_statistics now data).recent_trend =
        some ((listMean ((data.filter (fun r => decide (now - 90 ≤ r.2.purchase_date))).map
                (fun r => r.2.price))
              - listMean ((data.filter (fun r => decide (r.2.purchase_date < now - 90) &&
                  decide (now - 180 ≤ r.2.purchase_date))).map (fun r => r.2.price)))
            / listMean ((data.filter (fun r => decide (r.2.purchase_date < now - 90) &&
                decide (now - 180 ≤ r.2.purchase_date))).map (fun r => r.2.price)) * 100)) ∧
    ((data.filter (fun r => decide (now - 90 ≤ r.2.purchase_date)) = [] ∨
      data.filter (fun r => decide (r.2.purchase_date < now - 90) &&
        decide (now - 180 ≤ r.2.purchase_date)) = []) →
      (calculate_price_statistics now data).recent_trend = none) := by
  refine ⟨?_, ?_, ?_⟩
  · intro h; subst h; rfl
  · intro h1 h2
    have hd : data ≠ [] := by
      intro h; subst h; simp at h1
    have hde : data.isEmpty = false := by
      simpa [List.isEmpty_iff] using hd
    simp only [calculate_price_statistics, hde, Bool.false_eq_true, if_false]
    rw [if_pos ⟨by simpa [List.isEmpty_iff] using h1, by simpa [List.isEmpty_iff] using h2⟩]
  · intro h
    by_cases hd : data = []
    · subst hd; rfl
    · have hde : data.isEmpty = false := by
        simpa [List.isEmpty_iff] using hd
      simp only [calculate_price_statistics, hde, Bool.false_eq_true, if_false]
      rw [if_neg]
      intro hcon
      rcases h with h | h
      · exact hcon.1 (by rw [h]; rfl)
      · exact hcon.2 (by rw [h]; rfl)

theorem c3_price_statistics_spec_witness :
    (calculate_price_statistics 1000
      [("business_unit_a", ⟨110, 950⟩), ("business_unit_a", ⟨100, 850⟩)]).recent_trend =
      some 10 ∧
    calculate_price_statistics 1000 [] =
      { min_price := none, max_price := none, avg_price := none
        price_volatility := none, recent_trend := none } := by
  constructor
  · have h := (c3_price_statistics_spec 1000
      [("business_unit_a", ⟨110, 950⟩), ("business_unit_a", ⟨100, 850⟩)]).2.1
      (by decide) (by decide)
    exact h.trans (by norm_num [List.filter, listMean])
  · exact (c3_price_statistics_spec 1000 []).1 rfl

/-- C5: with zero active records the resolver returns the hardcoded default
prompt pair, the same value on every call; with more than one active record
the lookup surfaces the `MultipleObjectsReturned` error to the caller
instead of picking one of the active records. -/
theorem c5_resolver_spec (store store2 : List GPTPromptConfig) :
    (store.filter (fun c => c.is_active) = [] →
      _get_active_prompt_config store = .ok (default_system_prompt, default_user_prompt)) ∧
    (store.filter (fun c => c.is_active) = [] →
      store2.filter (fun c => c.is_active) = [] →
      _get_active_prompt_config store = _get_active_prompt_config store2) ∧
    (1 < (store.filter (fun c => c.is_active)).length →
      _get_active_prompt_config store = .error .multipleObjectsReturned) := by
  refine ⟨?_, ?_, ?_⟩
  · intro h; exact resolver_default_of_no_active store h
  · intro h h2
    rw [resolver_default_of_no_active store h, resolver_default_of_no_active store2 h2]
  · intro h; exact resolver_error_of_two_active store h

theorem c5_resolver_spec_witness :
    _get_active_prompt_config [] = .ok (default_system_prompt, default_user_prompt) ∧
    _get_active_prompt_config
      [⟨1, "a", "sys a", "usr a", true⟩, ⟨2, "b", "sys b", "usr b", true⟩] =
      .error .multipleObjectsReturned := by
  constructor
  · exact (c5_resolver_spec [] []).1 rfl
  · exact (c5_resolver_spec
      [⟨1, "a", "sys a", "usr a", true⟩, ⟨2, "b", "sys b", "usr b", true⟩] []).2.2
      (by decide)

/-- C10: with more than one active `GPTPromptConfig`, the
`MultipleObjectsReturned` error escapes `_get_active_prompt_config` (whose
handler catches only `DoesNotExist`) but is absorbed by the catch-all of
`extract_quote_data`, so the caller observes the fallback `QuoteData`
(null fields, the current date, empty items) rather than a surfaced fatal
error. -/
theorem c10_multiple_active_absorbed (store : List GPTPromptConfig)
    (invoke : String → String → String → Except PyErr String)
    (parse : String → Except PyErr QuoteData)
    (today : PyDate) (text_content : String)
    (h : 1 < (store.filter (fun c => c.is_active)).length) :
    _get_active_prompt_config store = .error .multipleObjectsReturned ∧
    extract_quote_data store invoke parse today text_content =
      { supplier_name := none
        quote_number := none
        quote_date := some (strftime_Ymd today)
        items := [] } := by
  have hres := resolver_error_of_two_active store h
  refine ⟨hres, ?_⟩
  have hcore : extract_core store invoke parse today text_content =
      .error .multipleObjectsReturned := by
    unfold extract_core
    rw [hres]
    rfl
  exact extract_eq_fallback_of_core_error store invoke parse today text_content
    .multipleObjectsReturned hcore

theorem c10_multiple_active_absorbed_witness :
    extract_quote_data
      [⟨1, "a", "sys a", "usr a", true⟩, ⟨2, "b", "sys b", "usr b", true⟩]
      (fun _ _ _ => .ok "response") (fun _ => .ok ⟨none, none, none, []⟩)
      ⟨2024, 5, 7⟩ "some quote text" =
      { supplier_name := none
        quote_number := none
        quote_date := some "2024-05-07"
        items := [] } := by
  have h := (c10_multiple_active_absorbed
    [⟨1, "a", "sys a", "usr a", true⟩, ⟨2, "b", "sys b", "usr b", true⟩]
    (fun _ _ _ => .ok "response") (fun _ => .ok ⟨none, none, none, []⟩)
    ⟨2024, 5, 7⟩ "some quote text" (by decide)).2
  exact h.trans (by decide)

theorem pydate_le_refl (a : PyDate) : PyDate.le a a := by
  unfold PyDate.le; omega

theorem pydate_le_trans {a b c : PyDate} (h1 : PyDate.le a b) (h2 : PyDate.le b c) :
    PyDate.le a c := by
  unfold PyDate.le at *; omega

theorem pydate_le_of_lt {a b : PyDate} (h : PyDate.lt a b) : PyDate.le a b := by
  unfold PyDate.lt at h; unfold PyDate.le; omega

theorem pydate_le_of_not_lt {a b : PyDate} (h : ¬ PyDate.lt a b) : PyDate.le b a := by
  unfold PyDate.lt at h; unfold PyDate.le; omega

theorem mostRecentRow_eq_none_iff (l : List FredAeroRow) :
    mostRecentRow l = none ↔ l = [] := by
  induction l with
  | nil => simp [mostRecentRow]
  | cons o os ih =>
    simp only [mostRecentRow]
    constructor
    · intro h
      rcases hr : mostRecentRow os with _ | b
      · rw [hr] at h; simp at h
      · rw [hr] at h
        by_cases hlt : PyDate.lt b.observation_date o.observation_date <;>
          simp [hlt] at h
    · intro h; simp at h

theorem mostRecentRow_mem {l : List FredAeroRow} {o : FredAeroRow}
    (h : mostRecentRow l = some o) : o ∈ l := by
  induction l with
  | nil => simp [mostRecentRow] at h
  | cons a os ih =>
    simp only [mostRecentRow] at h
    rcases hr : mostRecentRow os with _ | b
    · rw [hr] at h
      simp at h
      simp [h]
    · rw [hr] at h
      by_cases hlt : PyDate.lt b.observation_date a.observation_date
      · simp [hlt] at h
        simp [h]
      · simp [hlt] at h
        subst h
        exact List.mem_cons_of_mem a (ih hr)

theorem mostRecentRow_ge :
    ∀ (l : List FredAeroRow) (o : FredAeroRow), mostRecentRow l = some o →
      ∀ x ∈ l, PyDate.le x.observation_date o.observation_date := by
  intro l
  induction l with
  | nil => intro o h; simp [mostRecentRow] at h
  | cons a os ih =>
    intro o h x hx
    simp only [mostRecentRow] at h
    rcases hr : mostRecentRow os with _ | b
    · rw [hr] at h
      simp at h
      subst h
      have hos : os = [] := (mostRecentRow_eq_none_iff os).1 hr
      subst hos
      simp at hx
      subst hx
      exact pydate_le_refl _
    · rw [hr] at h
      rcases List.mem_cons.1 hx with hxa | hxos
      · subst hxa
        by_cases hlt : PyDate.lt b.observation_date x.observation_date
        · simp [hlt] at h
          subst h
          exact pydate_le_refl _
        · simp [hlt] at h
          subst h
          exact pydate_le_of_not_lt hlt
      · have hxb := ih b hr x hxos
        by_cases hlt : PyDate.lt b.observation_date a.observation_date
        · simp [hlt] at h
          subst h
          exact pydate_le_trans hxb (pydate_le_of_lt hlt)
        · simp [hlt] at h
          subst h
          exact hxb

/-- C7: `get_index_for_date` aligns the target date to the first day of its
month and returns a stored observation whose date is on or before that
first-of-month date and is the most recent such (no qualifying stored date
is later); it returns `none` exactly when no observation is on or before
the aligned date; in particular a lookup for 2024-03-17 aligns to
2024-03-01, a store whose only row is dated 2024-02-01 answers with that
row, and a store whose only row is dated 2024-04-01 answers `none`. -/
theorem c7_get_index_for_date_spec (store : List FredAeroRow) (target_date : PyDate) :
    (∀ o, get_index_for_date store target_date = some o →
      o ∈ store ∧ PyDate.le o.observation_date (_get_first_of_month target_date) ∧
      ∀ x ∈ store, PyDate.le x.observation_date (_get_first_of_month target_date) →
        PyDate.le x.observation_date o.observation_date) ∧
    (get_index_for_date store target_date = none ↔
      ∀ x ∈ store, ¬ PyDate.le x.observation_date (_get_first_of_month target_date)) ∧
    _get_first_of_month ⟨2024, 3, 17⟩ = ⟨2024, 3, 1⟩ ∧
    get_index_for_date [⟨⟨2024, 2, 1⟩, 105⟩] ⟨2024, 3, 17⟩ = some ⟨⟨2024, 2, 1⟩, 105⟩ ∧
    get_index_for_date [⟨⟨2024, 4, 1⟩, 105⟩] ⟨2024, 3, 17⟩ = none := by
  refine ⟨?_, ?_, rfl, by decide, by decide⟩
  · intro o h
    unfold get_index_for_date at h
    have hmem := mostRecentRow_mem h
    rw [List.mem_filter] at hmem
    refine ⟨hmem.1, of_decide_eq_true hmem.2, ?_⟩
    intro x hx hxle
    exact mostRecentRow_ge _ o h x (List.mem_filter.2 ⟨hx, by simp [hxle]⟩)
  · unfold get_index_for_date
    rw [mostRecentRow_eq_none_iff, List.filter_eq_nil_iff]
    constructor
    · intro h x hx hle
      exact absurd (decide_eq_true hle) (by simpa using h x hx)
    · intro h x hx
      simpa using fun hle => h x hx (of_decide_eq_true hle)

theorem c7_get_index_for_date_spec_witness :
    (⟨⟨2024, 2, 1⟩, 105⟩ : FredAeroRow) ∈ [(⟨⟨2024, 2, 1⟩, 105⟩ : FredAeroRow)] ∧
    PyDate.le ⟨2024, 2, 1⟩ (_get_first_of_month ⟨2024, 3, 17⟩) := by
  have h := (c7_get_index_for_date_spec [⟨⟨2024, 2, 1⟩, 105⟩] ⟨2024, 3, 17⟩).1
    ⟨⟨2024, 2, 1⟩, 105⟩ (by decide)
  exact ⟨h.1, h.2.1⟩

theorem fetch_loop_ok (db : String → String → ℤ → Except PyErr (List PriceRow))
    (item_number : String) (cutoff : ℤ) (rowsOf : String → List PriceRow) :
    ∀ us : List String, (∀ u ∈ us, db u item_number cutoff = .ok (rowsOf u)) →
      fetch_loop db item_number cutoff us =
        .ok ((us.map (fun u => tagRows u (rowsOf u))).flatten) := by
  intro us
  induction us with
  | nil => intro _; rfl
  | cons u us ih =>
    intro h
    have hu : db u item_number cutoff = .ok (rowsOf u) := h u (List.mem_cons_self u us)
    have hrest := ih (fun v hv => h v (List.mem_cons_of_mem u hv))
    simp only [fetch_loop, hu, hrest]
    rfl

theorem fetch_loop_error (db : String → String → ℤ → Except PyErr (List PriceRow))
    (item_number : String) (cutoff : ℤ) :
    ∀ (us : List String) (u : String), u ∈ us →
      ∀ e : PyErr, db u item_number cutoff = .error e →
        ∃ e2 : PyErr, fetch_loop db item_number cutoff us = .error e2 := by
  intro us
  induction us with
  | nil => intro u hu; simp at hu
  | cons v us ih =>
    intro u hu e he
    rcases hv : db v item_number cutoff with e2 | rows
    · exact ⟨e2, by simp only [fetch_loop, hv]; rfl⟩
    · rcases List.mem_cons.1 hu with rfl | hus
      · rw [hv] at he; exact absurd he (by simp)
      · obtain ⟨e2, h2⟩ := ih u hus e he
        exact ⟨e2, by simp only [fetch_loop, hv, h2]; rfl⟩

theorem c9_fetch_counterexample :
    fetch_historical_prices db_unit_b_down 1000 "ITEM-1" 365 = .error .dbFailure ∧
    db_unit_b_down "business_unit_a" "ITEM-1" (1000 - 365) = .ok [⟨50, 700⟩] ∧
    db_unit_b_down "business_unit_c" "ITEM-1" (1000 - 365) = .ok [⟨50, 700⟩] ∧
    "business_unit_b" ∈ business_units := by
  refine ⟨?_, rfl, rfl, by decide⟩
  rfl

/-- C9 (amended): when any business-unit query fails during
`fetch_historical_prices`, the raised error propagates to the caller and
aborts the whole fetch, discarding the results of the other sources; only
when every source succeeds does the fetch return the concatenation of the
per-unit tagged rows in source-enumeration order. -/
theorem c9_fetch_amended (db : String → String → ℤ → Except PyErr (List PriceRow))
    (now : ℤ) (item_number : String) (lookback_days : ℤ)
    (rowsOf : String → List PriceRow) :
    ((∀ u ∈ business_units, db u item_number (now - lookback_days) = .ok (rowsOf u)) →
      fetch_historical_prices db now item_number lookback_days =
        .ok ((business_units.map (fun u => tagRows u (rowsOf u))).flatten)) ∧
    (∀ u ∈ business_units, ∀ e : PyErr, db u item_number (now - lookback_days) = .error e →
      ∃ e2 : PyErr, fetch_historical_prices db now item_number lookback_days = .error e2) := by
  constructor
  · intro h
    exact fetch_loop_ok db item_number (now - lookback_days) rowsOf business_units h
  · intro u hu e he
    exact fetch_loop_error db item_number (now - lookback_days) business_units u hu e he

theorem c9_fetch_amended_witness :
    fetch_historical_prices (fun _ _ _ => .ok [⟨50, 700⟩]) 1000 "ITEM-1" 365 =
      .ok [("business_unit_a", ⟨50, 700⟩), ("business_unit_b", ⟨50, 700⟩),
           ("business_unit_c", ⟨50, 700⟩)] := by
  have h := (c9_fetch_amended (fun _ _ _ => .ok [⟨50, 700⟩]) 1000 "ITEM-1" 365
    (fun _ => [⟨50, 700⟩])).1 (fun u _ => rfl)
  exact h.trans rfl

theorem countP_pk_le_one {l : List GPTPromptConfig} (k : ℕ)
    (hnd : (l.map (fun r => r.pk)).Nodup) :
    l.countP (fun r => decide (r.pk = k)) ≤ 1 := by
  induction l with
  | nil => simp
  | cons r l ih =>
    rw [List.map_cons, List.nodup_cons] at hnd
    by_cases hk : r.pk = k
    · have hzero : l.countP (fun r => decide (r.pk = k)) = 0 := by
        rw [List.countP_eq_zero]
        intro x hx
        simp only [decide_eq_true_eq]
        intro hxk
        exact hnd.1 (by rw [hk, ← hxk]; exact List.mem_map_of_mem (fun r => r.pk) hx)
      rw [List.countP_cons, hzero]
      simp [hk]
    · rw [List.countP_cons]
      have hdk : (decide (r.pk = k)) = false := by simp [hk]
      rw [hdk]
      simpa using ih hnd.2

theorem save_active_unique (store : List GPTPromptConfig) (c : GPTPromptConfig)
    (hnd : (store.map (fun r => r.pk)).Nodup) (hc : c.is_active = true) :
    (GPTPromptConfig.save store c).filter (fun r => r.is_active) = [c] := by
  unfold GPTPromptConfig.save
  rw [if_pos hc]
  set store2 := store.map (fun r => if r.pk = c.pk then r else { r with is_active := false })
    with hstore2
  have hpk2 : store2.map (fun r => r.pk) = store.map (fun r => r.pk) := by
    rw [hstore2, List.map_map]
    apply List.map_congr_left
    intro r _
    by_cases h : r.pk = c.pk <;> simp [h]
  have hinactive : ∀ r ∈ store2, r.pk ≠ c.pk → r.is_active = false := by
    intro r hr hne
    rw [hstore2] at hr
    rcases List.mem_map.1 hr with ⟨r0, _, hr0⟩
    by_cases h : r0.pk = c.pk
    · rw [if_pos h] at hr0; subst hr0; exact absurd h hne
    · rw [if_neg h] at hr0; subst hr0; rfl
  by_cases hany : store2.any (fun r => decide (r.pk = c.pk)) = true
  · rw [if_pos hany]
    rw [List.filter_map]
    have hcongr : store2.filter ((fun r => r.is_active) ∘ fun r => if r.pk = c.pk then c else r)
        = store2.filter (fun r => decide (r.pk = c.pk)) := by
      apply List.filter_congr
      intro x hx
      by_cases h : x.pk = c.pk
      · simp [h, hc]
      · simp [h, hinactive x hx h]
    rw [hcongr]
    have hle : store2.countP (fun r => decide (r.pk = c.pk)) ≤ 1 :=
      countP_pk_le_one c.pk (by rw [hpk2]; exact hnd)
    have hpos : 0 < store2.countP (fun r => decide (r.pk = c.pk)) := by
      rcases List.any_eq_true.1 hany with ⟨x, hx, hxk⟩
      exact List.countP_pos_iff.2 ⟨x, hx, hxk⟩
    have hlen : (store2.filter (fun r => decide (r.pk = c.pk))).length = 1 := by
      rw [← List.countP_eq_length_filter]; omega
    rcases List.length_eq_one.1 hlen with ⟨x, hx⟩
    have hxk : x.pk = c.pk := by
      have : x ∈ store2.filter (fun r => decide (r.pk = c.pk)) := by
        rw [hx]; exact List.mem_singleton.2 rfl
      simpa using (List.mem_filter.1 this).2
    rw [hx, List.map_singleton, if_pos hxk]
  · rw [if_neg hany]
    rw [List.filter_append]
    have hnone : store2.filter (fun r => r.is_active) = [] := by
      rw [List.filter_eq_nil_iff]
      intro x hx
      have hxk : x.pk ≠ c.pk := by
        intro h
        exact hany (List.any_eq_true.2 ⟨x, hx, by simp [h]⟩)
      simp [hinactive x hx hxk]
    rw [hnone]
    simp [hc]

theorem countP_active_upsert_le (l : List GPTPromptConfig) (c : GPTPromptConfig)
    (hc : c.is_active = false) :
    (if l.any (fun r => decide (r.pk = c.pk)) then
        l.map (fun r => if r.pk = c.pk then c else r)
      else l ++ [c]).countP (fun r => r.is_active) ≤
      l.countP (fun r => r.is_active) := by
  by_cases hany : l.any (fun r => decide (r.pk = c.pk)) = true
  · rw [if_pos hany, List.countP_map]
    apply List.countP_mono_left
    intro x _
    simp only [Function.comp_apply]
    by_cases h : x.pk = c.pk
    · rw [if_pos h]; simp [hc]
    · rw [if_neg h]; exact fun h2 => h2
  · rw [if_neg hany, List.countP_append]
    simp [hc]

/-- C8: after any `GPTPromptConfig.save` of a record with `is_active = true`
into a store with distinct primary keys, the saved record is the single
active record of the store (so activating "B" while "A" is active leaves
exactly "B" active and "A" inactive, as the concrete two-record store
shows); and a save of an inactive record preserves the at-most-one-active
invariant, so the invariant holds after every write. -/
theorem c8_single_active_invariant (store : List GPTPromptConfig) (c : GPTPromptConfig) :
    ((store.map (fun r => r.pk)).Nodup → c.is_active = true →
      (GPTPromptConfig.save store c).filter (fun r => r.is_active) = [c]) ∧
    (c.is_active = false → store.countP (fun r => r.is_active) ≤ 1 →
      (GPTPromptConfig.save store c).countP (fun r => r.is_active) ≤ 1) ∧
    GPTPromptConfig.save
      [⟨1, "A", "sys a", "usr a", true⟩, ⟨2, "B", "sys b", "usr b", false⟩]
      ⟨2, "B", "sys b", "usr b", true⟩ =
      [⟨1, "A", "sys a", "usr a", false⟩, ⟨2, "B", "sys b", "usr b", true⟩] := by
  refine ⟨?_, ?_, by decide⟩
  · intro hnd hc
    exact save_active_unique store c hnd hc
  · intro hc hle
    unfold GPTPromptConfig.save
    simp only [hc, Bool.false_eq_true, if_false]
    exact le_trans (countP_active_upsert_le store c hc) hle

theorem c8_single_active_invariant_witness :
    (GPTPromptConfig.save
      [⟨1, "A", "sys a", "usr a", true⟩, ⟨2, "B", "sys b", "usr b", false⟩]
      ⟨2, "B", "sys b", "usr b", true⟩).filter (fun r => r.is_active) =
      [⟨2, "B", "sys b", "usr b", true⟩] :=
  (c8_single_active_invariant
    [⟨1, "A", "sys a", "usr a", true⟩, ⟨2, "B", "sys b", "usr b", false⟩]
    ⟨2, "B", "sys b", "usr b", true⟩).1 (by decide) rfl

theorem pySplitAux_tokens :
    ∀ (cs acc : List Char), (∀ c ∈ acc, isPySpace c = false) →
      ∀ t ∈ pySplitAux cs acc, t ≠ [] ∧ ∀ c ∈ t, isPySpace c = false := by
  intro cs
  induction cs with
  | nil =>
    intro acc hacc t ht
    simp only [pySplitAux] at ht
    rcases hae : acc.isEmpty with _ | _
    · rw [hae] at ht
      simp at ht
      subst ht
      constructor
      · simp [List.isEmpty_iff] at hae
        simpa using hae
      · intro c hc
        exact hacc c (List.mem_reverse.1 hc)
    · rw [hae] at ht
      simp at ht
  | cons c cs ih =>
    intro acc hacc t ht
    simp only [pySplitAux] at ht
    by_cases hsp : isPySpace c = true
    · rw [if_pos hsp] at ht
      rcases hae : acc.isEmpty with _ | _
      · rw [hae] at ht
        simp only [Bool.false_eq_true, if_false] at ht
        rcases List.mem_cons.1 ht with rfl | ht2
        · constructor
          · simp [List.isEmpty_iff] at hae
            simpa using hae
          · intro d hd
            exact hacc d (List.mem_reverse.1 hd)
        · exact ih [] (by simp) t ht2
      · rw [hae] at ht
        simp only [if_true] at ht
        exact ih [] (by simp) t ht
    · rw [if_neg hsp] at ht
      refine ih (c :: acc) ?_ t ht
      intro d hd
      rcases List.mem_cons.1 hd with rfl | hd2
      · exact Bool.eq_false_iff.2 hsp
      · exact hacc d hd2

theorem pySplitAux_subset :
    ∀ (cs acc : List Char), ∀ t ∈ pySplitAux cs acc, ∀ c ∈ t, c ∈ cs ∨ c ∈ acc := by
  intro cs
  induction cs with
  | nil =>
    intro acc t ht c hc
    simp only [pySplitAux] at ht
    rcases hae : acc.isEmpty with _ | _
    · rw [hae] at ht
      simp at ht
      subst ht
      exact Or.inr (List.mem_reverse.1 hc)
    · rw [hae] at ht
      simp at ht
  | cons a cs ih =>
    intro acc t ht c hc
    simp only [pySplitAux] at ht
    by_cases hsp : isPySpace a = true
    · rw [if_pos hsp] at ht
      rcases hae : acc.isEmpty with _ | _
      · rw [hae] at ht
        simp only [Bool.false_eq_true, if_false] at ht
        rcases List.mem_cons.1 ht with rfl | ht2
        · exact Or.inr (List.mem_reverse.1 hc)
        · rcases ih [] t ht2 c hc with h | h
          · exact Or.inl (List.mem_cons_of_mem a h)
          · simp at h
      · rw [hae] at ht
        simp only [if_true] at ht
        rcases ih [] t ht c hc with h | h
        · exact Or.inl (List.mem_cons_of_mem a h)
        · simp at h
    · rw [if_neg hsp] at ht
      rcases ih (a :: acc) t ht c hc with h | h
      · exact Or.inl (List.mem_cons_of_mem a h)
      · rcases List.mem_cons.1 h with rfl | h2
        · exact Or.inl (List.mem_cons_self c cs)
        · exact Or.inr h2

theorem hasDD_of_no_space (t : List Char) (h : ∀ c ∈ t, c ≠ ' ') :
    hasDD t = false := by
  induction t with
  | nil => rfl
  | cons a t ih =>
    cases t with
    | nil => rfl
    | cons b l =>
      have ha : a ≠ ' ' := h a (List.mem_cons_self a _)
      have ht : hasDD (b :: l) = false := ih (fun c hc => h c (List.mem_cons_of_mem a hc))
      simp [hasDD, ha, ht]

theorem hasDD_token_append (t rest : List Char)
    (ht : ∀ c ∈ t, c ≠ ' ') (hr : hasDD (' ' :: rest) = false) :
    hasDD (t ++ ' ' :: rest) = false := by
  induction t with
  | nil => simpa using hr
  | cons c t' ih =>
    have hc : c ≠ ' ' := ht c (List.mem_cons_self c t')
    have ih' : hasDD (t' ++ ' ' :: rest) = false :=
      ih (fun d hd => ht d (List.mem_cons_of_mem c hd))
    cases t' with
    | nil =>
      simp only [List.nil_append] at ih'
      simp [hasDD, hc, ih']
    | cons d t'' =>
      simp only [List.cons_append] at ih' ⊢
      simp [hasDD, hc, ih']

theorem hasDD_space_cons (x : List Char) (hx : hasDD x = false)
    (hh : ∀ b, x.head? = some b → b ≠ ' ') : hasDD (' ' :: x) = false := by
  cases x with
  | nil => rfl
  | cons b l =>
    have hb : b ≠ ' ' := hh b rfl
    simp [hasDD, hb, hx]

theorem joinSp_head (t2 : List Char) (ts2 : List (List Char)) (ht2 : t2 ≠ []) :
    (joinSp (t2 :: ts2)).head? = t2.head? := by
  cases ts2 with
  | nil => rfl
  | cons t3 ts3 =>
    cases t2 with
    | nil => exact absurd rfl ht2
    | cons a t2' => rfl

theorem hasDD_joinSp (ts : List (List Char))
    (h : ∀ t ∈ ts, t ≠ [] ∧ ∀ c ∈ t, isPySpace c = false) :
    hasDD (joinSp ts) = false := by
  induction ts with
  | nil => rfl
  | cons t ts ih =>
    have hsp : (' ' : Char).toNat = 32 := rfl
    have hnospace : ∀ c ∈ t, c ≠ ' ' := by
      intro c hc hce
      subst hce
      have := (h t (List.mem_cons_self t ts)).2 ' ' hc
      simp [isPySpace] at this
    cases ts with
    | nil => exact hasDD_of_no_space t hnospace
    | cons t2 ts2 =>
      show hasDD (t ++ ' ' :: joinSp (t2 :: ts2)) = false
      apply hasDD_token_append t (joinSp (t2 :: ts2)) hnospace
      have hrec : hasDD (joinSp (t2 :: ts2)) = false :=
        ih (fun u hu => h u (List.mem_cons_of_mem t hu))
      apply hasDD_space_cons _ hrec
      intro b hb hbe
      subst hbe
      have ht2 := h t2 (List.mem_cons_of_mem t (List.mem_cons_self t2 ts2))
      rw [joinSp_head t2 ts2 ht2.1] at hb
      have hmem : (' ' : Char) ∈ t2 := by
        cases t2 with
        | nil => simp at hb
        | cons a t2' =>
          simp at hb
          subst hb
          exact List.mem_cons_self _ _
      have := ht2.2 ' ' hmem
      simp [isPySpace] at this

theorem joinSp_mem (ts : List (List Char)) (c : Char) (hc : c ∈ joinSp ts) :
    (∃ t ∈ ts, c ∈ t) ∨ c = ' ' := by
  induction ts with
  | nil => simp [joinSp] at hc
  | cons t ts ih =>
    cases ts with
    | nil =>
      exact Or.inl ⟨t, List.mem_cons_self t [], hc⟩
    | cons t2 ts2 =>
      have hc2 : c ∈ t ++ ' ' :: joinSp (t2 :: ts2) := hc
      rcases List.mem_append.1 hc2 with h | h
      · exact Or.inl ⟨t, List.mem_cons_self t _, h⟩
      · rcases List.mem_cons.1 h with rfl | h2
        · exact Or.inr rfl
        · rcases ih h2 with ⟨u, hu, hcu⟩ | h3
          · exact Or.inl ⟨u, List.mem_cons_of_mem t hu, hcu⟩
          · exact Or.inr h3

theorem c4_preprocess_counterexample :
    _preprocess_text "a é b" = "a  b" ∧
    hasDD (_preprocess_text "a é b").data = true ∧
    (∃ c ∈ "a é b".data, 128 ≤ c.toNat) := by
  refine ⟨rfl, rfl, by decide⟩

/-- C4 (amended): `_preprocess_text` first collapses whitespace runs and
then removes every character with code point at least 128, so for every
input the output is pure ASCII and empty input yields empty output; the
no-double-space guarantee, however, only holds when no character of code
point at least 128 has to be removed (removing a token that consisted
entirely of such characters leaves the two spaces around it adjacent): for
inputs that are already pure ASCII the output contains no double space. -/
theorem c4_preprocess_amended (text : String) :
    (∀ c ∈ (_preprocess_text text).data, c.toNat < 128) ∧
    _preprocess_text "" = "" ∧
    ((∀ c ∈ text.data, c.toNat < 128) → hasDD (_preprocess_text text).data = false) := by
  refine ⟨?_, rfl, ?_⟩
  · intro c hc
    have hc2 : c ∈ (joinSp (pySplit text.data)).filter (fun c => decide (c.toNat < 128)) := hc
    have := (List.mem_filter.1 hc2).2
    simpa using this
  · intro hascii
    show hasDD ((joinSp (pySplit text.data)).filter (fun c => decide (c.toNat < 128))) = false
    have hall : ∀ c ∈ joinSp (pySplit text.data), c.toNat < 128 := by
      intro c hc
      rcases joinSp_mem _ c hc with ⟨t, ht, hct⟩ | rfl
      · rcases pySplitAux_subset text.data [] t ht c hct with h | h
        · exact hascii c h
        · simp at h
      · show (' ' : Char).toNat < 128
        decide
    have hfe : (joinSp (pySplit text.data)).filter (fun c => decide (c.toNat < 128)) =
        joinSp (pySplit text.data) := by
      rw [List.filter_eq_self]
      intro c hc
      simpa using hall c hc
    rw [hfe]
    exact hasDD_joinSp _ (pySplitAux_tokens text.data [] (by simp))

theorem c4_preprocess_amended_witness :
    (∀ c ∈ (_preprocess_text "hello   world").data, c.toNat < 128) ∧
    hasDD (_preprocess_text "hello   world").data = false := by
  have h := c4_preprocess_amended "hello   world"
  exact ⟨h.1, h.2.2 (by decide)⟩

theorem char_toNat_ofNat {n : ℕ} (h : n.isValidChar) : (Char.ofNat n).toNat = n := by
  unfold Char.ofNat
  rw [dif_pos h]
  rfl

theorem toUpper_eq (c : Char) :
    c.toUpper = if c.toNat ≥ 97 ∧ c.toNat ≤ 122 then Char.ofNat (c.toNat - 32) else c := rfl

theorem toNat_toUpper (c : Char) :
    c.toUpper.toNat = if 97 ≤ c.toNat ∧ c.toNat ≤ 122 then c.toNat - 32 else c.toNat := by
  rw [toUpper_eq]
  by_cases h : 97 ≤ c.toNat ∧ c.toNat ≤ 122
  · rw [if_pos h, if_pos h]
    exact char_toNat_ofNat (Or.inl (by omega))
  · rw [if_neg h, if_neg h]

theorem toUpper_idem (c : Char) : c.toUpper.toUpper = c.toUpper := by
  rw [toUpper_eq c.toUpper, if_neg]
  intro hcon
  rw [toNat_toUpper c] at hcon
  by_cases hc : 97 ≤ c.toNat ∧ c.toNat ≤ 122
  · rw [if_pos hc] at hcon; omega
  · rw [if_neg hc] at hcon; exact hc hcon

theorem isPySpace_toUpper (c : Char) : isPySpace c.toUpper = isPySpace c := by
  by_cases hc : 97 ≤ c.toNat ∧ c.toNat ≤ 122
  · have h : c.toUpper.toNat = c.toNat - 32 := by rw [toNat_toUpper, if_pos hc]
    have h1 : isPySpace c.toUpper = false := by
      simp only [isPySpace, h, decide_eq_false_iff_not]
      omega
    have h2 : isPySpace c = false := by
      simp only [isPySpace, decide_eq_false_iff_not]
      omega
    rw [h1, h2]
  · have h : c.toUpper.toNat = c.toNat := by rw [toNat_toUpper, if_neg hc]
    simp only [isPySpace, h]

theorem map_eq_self_of_fixed {f : Char → Char} (l : List Char) (h : ∀ c ∈ l, f c = c) :
    l.map f = l := by
  induction l with
  | nil => rfl
  | cons a l ih =>
    rw [List.map_cons, h a (List.mem_cons_self a l),
      ih (fun c hc => h c (List.mem_cons_of_mem a hc))]

theorem dropWhile_eq_self_of_head (p : Char → Bool) (m : List Char)
    (h : ∀ b, m.head? = some b → p b = false) : m.dropWhile p = m := by
  cases m with
  | nil => rfl
  | cons a l => simp [List.dropWhile_cons, h a rfl]

theorem head?_pyStripAux_not_space (l : List Char) :
    ∀ b, (pyStripAux l).head? = some b → isPySpace b = false := by
  intro b hb
  unfold pyStripAux at hb
  rw [List.head?_reverse] at hb
  have hsplit : ((l.dropWhile isPySpace).reverse.takeWhile isPySpace) ++
      ((l.dropWhile isPySpace).reverse.dropWhile isPySpace) =
      (l.dropWhile isPySpace).reverse :=
    List.takeWhile_append_dropWhile _ _
  have hgl : (l.dropWhile isPySpace).reverse.getLast? = some b := by
    have happ := @List.getLast?_append Char
      ((l.dropWhile isPySpace).reverse.takeWhile isPySpace)
      ((l.dropWhile isPySpace).reverse.dropWhile isPySpace)
    rw [hsplit, hb] at happ
    rw [happ]
    rfl
  rw [List.getLast?_reverse] at hgl
  have hnot := List.head?_dropWhile_not isPySpace l
  rw [hgl] at hnot
  exact hnot

theorem pyStripAux_idem (l : List Char) : pyStripAux (pyStripAux l) = pyStripAux l := by
  have h1 : (pyStripAux l).dropWhile isPySpace = pyStripAux l :=
    dropWhile_eq_self_of_head _ _ (head?_pyStripAux_not_space l)
  show (((pyStripAux l).dropWhile isPySpace).reverse.dropWhile isPySpace).reverse = pyStripAux l
  rw [h1]
  have h2 : (pyStripAux l).reverse =
      ((l.dropWhile isPySpace).reverse).dropWhile isPySpace := by
    unfold pyStripAux
    rw [List.reverse_reverse]
  rw [h2, List.dropWhile_idempotent]
  rfl

theorem mem_dropWhile_of_neg (p : Char → Bool) (l : List Char) (c : Char)
    (hc : c ∈ l) (hp : p c = false) : c ∈ l.dropWhile p := by
  have hsplit : l.takeWhile p ++ l.dropWhile p = l := List.takeWhile_append_dropWhile _ _
  rw [← hsplit] at hc
  rcases List.mem_append.1 hc with h | h
  · have hall := @List.all_takeWhile Char p l
    rw [List.all_eq_true] at hall
    rw [hall c h] at hp
    exact Bool.noConfusion hp
  · exact h

theorem mem_of_mem_pyStripAux (l : List Char) : ∀ c ∈ pyStripAux l, c ∈ l := by
  intro c hc
  unfold pyStripAux at hc
  rw [List.mem_reverse] at hc
  have h2 : c ∈ (l.dropWhile isPySpace).reverse :=
    (List.dropWhile_sublist isPySpace).subset hc
  rw [List.mem_reverse] at h2
  exact (List.dropWhile_sublist isPySpace).subset h2

theorem pyStripAux_ne_nil (l : List Char) (c : Char) (hc : c ∈ l)
    (hcs : isPySpace c = false) : pyStripAux l ≠ [] := by
  have h1 : c ∈ l.dropWhile isPySpace := mem_dropWhile_of_neg _ _ c hc hcs
  have h2 : c ∈ (l.dropWhile isPySpace).reverse := List.mem_reverse.2 h1
  have h3 : c ∈ ((l.dropWhile isPySpace).reverse).dropWhile isPySpace :=
    mem_dropWhile_of_neg _ _ c h2 hcs
  intro h
  unfold pyStripAux at h
  rw [List.reverse_eq_nil_iff] at h
  rw [h] at h3
  simp at h3

theorem pyUpper_strip_upper (s : String) :
    pyUpper (pyStrip (pyUpper s)) = pyStrip (pyUpper s) := by
  show (⟨(pyStripAux (s.data.map Char.toUpper)).map Char.toUpper⟩ : String) =
    ⟨pyStripAux (s.data.map Char.toUpper)⟩
  congr 1
  apply map_eq_self_of_fixed
  intro c hc
  have hmem : c ∈ s.data.map Char.toUpper := mem_of_mem_pyStripAux _ c hc
  rcases List.mem_map.1 hmem with ⟨d, _, hd⟩
  rw [← hd, toUpper_idem]

theorem pyStrip_strip_upper (s : String) :
    pyStrip (pyStrip (pyUpper s)) = pyStrip (pyUpper s) := by
  show (⟨pyStripAux (pyStripAux (s.data.map Char.toUpper))⟩ : String) =
    ⟨pyStripAux (s.data.map Char.toUpper)⟩
  rw [pyStripAux_idem]

theorem c6_validate_counterexample :
    (_validate_quote_data ⟨2024, 5, 7⟩
      ⟨none, none, none, [⟨none, none, none, none, some " "⟩]⟩).items =
      [⟨none, none, none, none, some ""⟩] := by
  decide

/-- C6 (amended): after `_validate_quote_data`, every item has quantity and
unit price equal to the absolute value of the extracted value when present,
and a unit of measure that is upper-cased and trimmed, defaulting to "EA"
when the extracted value was missing or empty; the result is non-empty in
every case except one: an extracted unit of measure that was non-empty but
consisted only of whitespace is stripped to the empty string (it is
non-empty whenever the extracted value was missing, empty, or contained at
least one non-whitespace character). -/
theorem c6_validate_amended (today : PyDate) (qd : QuoteData) :
    (_validate_quote_data today qd).items = qd.items.map _validate_item ∧
    ∀ it : QuoteItem,
      (_validate_item it).quantity = it.quantity.map (fun q => |q|) ∧
      (_validate_item it).unit_price = it.unit_price.map (fun q => |q|) ∧
      (it.unit_of_measure = none → (_validate_item it).unit_of_measure = some "EA") ∧
      (it.unit_of_measure = some "" → (_validate_item it).unit_of_measure = some "EA") ∧
      (∀ s, it.unit_of_measure = some s → s ≠ "" →
        (_validate_item it).unit_of_measure = some (pyStrip (pyUpper s))) ∧
      (∀ u, (_validate_item it).unit_of_measure = some u →
        pyUpper u = u ∧ pyStrip u = u ∧
        ((it.unit_of_measure = none ∨ it.unit_of_measure = some "" ∨
          (∃ s, it.unit_of_measure = some s ∧ ∃ c ∈ s.data, isPySpace c = false)) →
          u ≠ "")) := by
  refine ⟨rfl, ?_⟩
  intro it
  refine ⟨rfl, rfl, ?_, ?_, ?_, ?_⟩
  · intro h; simp [_validate_item, h]
  · intro h; simp [_validate_item, h]
  · intro s h hne; simp [_validate_item, h, hne]
  · intro u hu
    rcases hm : it.unit_of_measure with _ | s
    · have hea : u = "EA" := by
        rw [show (_validate_item it).unit_of_measure =
          some "EA" by simp [_validate_item, hm]] at hu
        exact (Option.some_inj.1 hu).symm
      subst hea
      refine ⟨by decide, by decide, fun _ => by decide⟩
    · by_cases hs : s = ""
      · subst hs
        have hea : u = "EA" := by
          rw [show (_validate_item it).unit_of_measure =
            some "EA" by simp [_validate_item, hm]] at hu
          exact (Option.some_inj.1 hu).symm
        subst hea
        refine ⟨by decide, by decide, fun _ => by decide⟩
      · have hval : u = pyStrip (pyUpper s) := by
          rw [show (_validate_item it).unit_of_measure =
            some (pyStrip (pyUpper s)) by simp [_validate_item, hm, hs]] at hu
          exact (Option.some_inj.1 hu).symm
        subst hval
        refine ⟨pyUpper_strip_upper s, pyStrip_strip_upper s, ?_⟩
        intro hcond
        rcases hcond with h | h | ⟨s2, hs2, c, hc, hcs⟩
        · exact Option.noConfusion h
        · exact absurd (Option.some_inj.1 h) hs
        · have hss : s2 = s := (Option.some_inj.1 hs2).symm
          rw [hss] at hc
          intro hemp
          have hne : pyStripAux (s.data.map Char.toUpper) ≠ [] := by
            apply pyStripAux_ne_nil _ c.toUpper
            · exact List.mem_map_of_mem Char.toUpper hc
            · rw [isPySpace_toUpper]; exact hcs
          apply hne
          have := congrArg String.data hemp
          simpa using this

theorem c6_validate_amended_witness :
    (_validate_item ⟨none, none, some (-5), none, none⟩).quantity = some 5 ∧
    (_validate_item ⟨none, none, some (-5), none, none⟩).unit_of_measure = some "EA" := by
  have h := (c6_validate_amended ⟨2024, 5, 7⟩ ⟨none, none, none, []⟩).2
    ⟨none, none, some (-5), none, none⟩
  refine ⟨?_, h.2.2.1 rfl⟩
  rw [h.1]
  norm_num
